import Mathlib

/-!
Verification of the PySys test framework specification against a shallow
embedding of its source code.

The embedding covers:

* the outcome constants and precedence order of `pysys/constants.py`
  (tag PySys_0_1_3) and the outcome aggregation of
  `trunk/pysys/basetest.py` (`BaseTest.addOutcome` / `BaseTest.getOutcome`);
* the Unix process wrapper of `pysys/process/plat-unix/helper.py`
  (`ProcessWrapper.setExitStatus`) together with the common wrapper of
  `branches/ben-cleanup/pysys/process/commonwrapper.py`
  (`CommonProcessWrapper.write` / `running` / `wait` / `start`);
* the background-thread supervision of `pysys/utils/threadutils.py`
  (`BackgroundThread.__run` / `join`);
* the thread-scoped log handler of `pysys/internal/initlogging.py`
  (`ThreadedStreamHandler.emit`);
* a model of the runner's interrupt handling (the runner source itself is
  not part of the source tree; only its system test is).
-/

/-! ## Outcome constants (pysys/constants.py, tag PySys_0_1_3) -/

def PASSED : Nat := 20
def INSPECT : Nat := 21
def NOTVERIFIED : Nat := 22
def FAILED : Nat := 23
def TIMEDOUT : Nat := 24
def DUMPEDCORE : Nat := 25
def BLOCKED : Nat := 26
def SKIPPED : Nat := 27

/-- The fixed total precedence order over outcomes, most severe first
(`PRECEDENT` in `pysys/constants.py`). -/
def PRECEDENT : List Nat :=
  [SKIPPED, BLOCKED, DUMPEDCORE, TIMEDOUT, FAILED, NOTVERIFIED, INSPECT, PASSED]

/-- `PRECEDENT.index(x)`: position of an outcome in the precedence list
(smaller = more severe). -/
def precIdx (x : Nat) : Nat := PRECEDENT.indexOf x

/-! ## Outcome aggregation (trunk/pysys/basetest.py) -/

/-- `BaseTest.addOutcome`: `self.outcome.append(outcome)`. -/
def addOutcome (outcome : List Nat) (o : Nat) : List Nat := outcome ++ [o]

/-- Insert `x` into a list already sorted by `precIdx`, keeping it sorted.
Together with `sortOutcomes` this realises the stable
`list.sort(lambda x, y: cmp(PRECEDENT.index(x), PRECEDENT.index(y)))`
performed by `BaseTest.getOutcome` on a copy of the outcome list. -/
def insertOutcome (x : Nat) : List Nat → List Nat
  | [] => [x]
  | y :: ys => if precIdx x ≤ precIdx y then x :: y :: ys else y :: insertOutcome x ys

/-- Stable sort of the outcome list by precedence index. -/
def sortOutcomes : List Nat → List Nat
  | [] => []
  | x :: xs => insertOutcome x (sortOutcomes xs)

/-- `BaseTest.getOutcome`: returns `NOTVERIFIED` when no outcome has been
recorded, otherwise the first element of a copy of the outcome list sorted
by precedence index. -/
def getOutcome (outcome : List Nat) : Nat :=
  if outcome.length = 0 then NOTVERIFIED
  else (sortOutcomes outcome).headD NOTVERIFIED

lemma mem_insertOutcome (x y : Nat) (l : List Nat) :
    y ∈ insertOutcome x l ↔ y = x ∨ y ∈ l := by
  induction l with
  | nil => simp [insertOutcome]
  | cons a as ih =>
    simp only [insertOutcome]
    split
    · simp [List.mem_cons]
    · simp only [List.mem_cons, ih]
      tauto

lemma mem_sortOutcomes (y : Nat) (l : List Nat) :
    y ∈ sortOutcomes l ↔ y ∈ l := by
  induction l with
  | nil => simp [sortOutcomes]
  | cons a as ih => simp [sortOutcomes, mem_insertOutcome, ih]

lemma insertOutcome_ne_nil (x : Nat) (l : List Nat) : insertOutcome x l ≠ [] := by
  cases l with
  | nil => simp [insertOutcome]
  | cons a as =>
    simp only [insertOutcome]
    split <;> simp

lemma sortOutcomes_ne_nil (x : Nat) (xs : List Nat) :
    sortOutcomes (x :: xs) ≠ [] := by
  simp only [sortOutcomes]
  exact insertOutcome_ne_nil x (sortOutcomes xs)

lemma headD_mem {l : List Nat} (h : l ≠ []) (d : Nat) : l.headD d ∈ l := by
  cases l with
  | nil => exact absurd rfl h
  | cons a as => simp

lemma insert_headD_le_self (x d : Nat) (l : List Nat) :
    precIdx ((insertOutcome x l).headD d) ≤ precIdx x := by
  cases l with
  | nil => simp [insertOutcome]
  | cons a as =>
    simp only [insertOutcome]
    split
    · simp
    · next h => simp only [List.headD_cons]; omega

lemma insert_headD_le_head (x d a : Nat) (as : List Nat) :
    precIdx ((insertOutcome x (a :: as)).headD d) ≤ precIdx a := by
  simp only [insertOutcome]
  split
  · next h => simpa using h
  · simp

lemma sort_headD_min (l : List Nat) (x : Nat) (hx : x ∈ l) (d : Nat) :
    precIdx ((sortOutcomes l).headD d) ≤ precIdx x := by
  induction l with
  | nil => cases hx
  | cons a as ih =>
    simp only [sortOutcomes]
    rcases List.mem_cons.mp hx with rfl | hmem
    · exact insert_headD_le_self x d (sortOutcomes as)
    · have h1 := ih hmem
      cases hsort : sortOutcomes as with
      | nil =>
        exfalso
        have hx2 := (mem_sortOutcomes x as).mpr hmem
        rw [hsort] at hx2
        cases hx2
      | cons b bs =>
        have h2 := insert_headD_le_head a d b bs
        rw [hsort] at h1
        simp only [List.headD_cons] at h1
        omega

lemma foldl_addOutcome (os acc : List Nat) :
    List.foldl addOutcome acc os = acc ++ os := by
  induction os generalizing acc with
  | nil => simp
  | cons a as ih => simp [addOutcome, ih]

/-- C2: For every finite sequence of outcome values recorded via `addOutcome`,
`getOutcome` returns a recorded value of minimal precedence index, i.e. the
most severe recorded value under the fixed order
SKIPPED > BLOCKED > DUMPEDCORE > TIMEDOUT > FAILED > NOTVERIFIED > INSPECT > PASSED;
if no value was recorded, it returns `NOTVERIFIED`. -/
theorem getOutcome_most_severe :
    getOutcome (List.foldl addOutcome [] []) = NOTVERIFIED ∧
    ∀ os : List Nat, os ≠ [] → (∀ x ∈ os, x ∈ PRECEDENT) →
      getOutcome (List.foldl addOutcome [] os) ∈ os ∧
      ∀ x ∈ os, precIdx (getOutcome (List.foldl addOutcome [] os)) ≤ precIdx x := by
  refine ⟨rfl, ?_⟩
  intro os hne _hprec
  rw [foldl_addOutcome, List.nil_append]
  have hlen : os.length ≠ 0 := by
    intro h
    exact hne (List.length_eq_zero.mp h)
  have hgo : getOutcome os = (sortOutcomes os).headD NOTVERIFIED := by
    simp [getOutcome, hlen]
  constructor
  · rw [hgo]
    cases os with
    | nil => exact absurd rfl hne
    | cons a as =>
      have hs := sortOutcomes_ne_nil a as
      exact (mem_sortOutcomes _ _).mp (headD_mem hs NOTVERIFIED)
  · intro x hx
    rw [hgo]
    exact sort_headD_min os x hx NOTVERIFIED

/-- Witness for C2 at a concrete recorded sequence. -/
theorem getOutcome_most_severe_witness :
    getOutcome (List.foldl addOutcome [] [PASSED, FAILED, PASSED]) ∈ [PASSED, FAILED, PASSED] ∧
    ∀ x ∈ [PASSED, FAILED, PASSED],
      precIdx (getOutcome (List.foldl addOutcome [] [PASSED, FAILED, PASSED])) ≤ precIdx x :=
  getOutcome_most_severe.2 [PASSED, FAILED, PASSED] (by decide) (by decide)

/-! ## Process state constants (pysys/constants.py) -/

def BACKGROUND : Nat := 10
def FOREGROUND : Nat := 11

/-! ## Unix process wrapper (pysys/process/plat-unix/helper.py and
branches/ben-cleanup/pysys/process/commonwrapper.py)

The wrapper state consists of the fields that `setExitStatus` and `write`
read and update: the reaped exit status (`self.exitStatus`), the stdin
queue (`self._outQueue`, discarded by setting it to `None` once the exit
is observed), and the stdin pipe descriptor (`self.__stdin`, closed and
set to `None` at the same point). -/

structure ProcState where
  exitStatus : Option Int
  outQueue : Option (List String)
  stdin : Option Nat
deriving DecidableEq, Repr

/-- State of a freshly started process: no exit status yet, an empty stdin
queue, and an open stdin pipe descriptor `fd`. -/
def startedProc (fd : Nat) : ProcState :=
  { exitStatus := none, outQueue := some [], stdin := some fd }

/-- POSIX `WIFEXITED`: the low 7 bits of the raw wait status are zero. -/
def wifexited (s : Nat) : Bool := s &&& 0x7f == 0

/-- POSIX `WEXITSTATUS`: bits 8..15 of the raw wait status. -/
def wexitstatus (s : Nat) : Nat := (s >>> 8) &&& 0xff

/-- POSIX `WTERMSIG`: the low 7 bits of the raw wait status. -/
def wtermsig (s : Nat) : Nat := s &&& 0x7f

/-- POSIX `WIFSIGNALED`: the low 7 bits are neither 0 (normal exit) nor
0x7f (stopped). -/
def wifsignaled (s : Nat) : Bool := (s &&& 0x7f != 0) && (s &&& 0x7f != 0x7f)

/-- The decoding `ProcessWrapper.setExitStatus` applies to a raw `waitpid`
status: `WEXITSTATUS` on a normal exit, `WTERMSIG` on termination by a
signal, and the raw status otherwise. -/
def decodeStatus (s : Nat) : Int :=
  if wifexited s then (wexitstatus s : Int)
  else if wifsignaled s then (wtermsig s : Int)
  else (s : Int)

/-- One response of the operating system to a `os.waitpid(pid, WNOHANG)`
call: the child has not exited yet (`pid == 0`), the child exited with the
given raw wait status, the transient `ECHILD` error, or another `OSError`. -/
inductive WaitResult
  | notYet
  | exited (raw : Nat)
  | echild
  | osfail
deriving DecidableEq, Repr

/-- The retry loop of `setExitStatus`: starting with `retries = 3`, query
the OS (`f q` is the OS answer to the `q`-th query); a successful `waitpid`
(child exited or not-yet-visible) or a non-`ECHILD` error sets
`retries = 0`, while `ECHILD` sleeps and decrements `retries`. Returns the
decoded exit status, if one was observed, and the number of OS queries
made. -/
def reapLoop (f : Nat → WaitResult) : Nat → Nat → Option Int × Nat
  | 0, q => (none, q)
  | retries + 1, q =>
    match f q with
    | .exited raw => (some (decodeStatus raw), q + 1)
    | .notYet => (none, q + 1)
    | .echild => reapLoop f retries (q + 1)
    | .osfail => (none, q + 1)

/-- `ProcessWrapper.setExitStatus`: under the handle's lock, return the
exit status immediately (with no OS query) if it is already set; otherwise
run the reap loop, and on first observing the exit record the decoded
status, discard the stdin queue (`self._outQueue = None`) and close the
stdin descriptor. Returns the new state, the returned exit status, and the
number of OS queries made. -/
def setExitStatus (st : ProcState) (f : Nat → WaitResult) :
    ProcState × Option Int × Nat :=
  match st.exitStatus with
  | some v => (st, some v, 0)
  | none =>
    let r := reapLoop f 3 0
    match r.1 with
    | some v => ({ st with exitStatus := some v, outQueue := none, stdin := none }, some v, r.2)
    | none => (st, none, r.2)

/-- `CommonProcessWrapper.running`: `self._setExitStatus() is None`. -/
def runningCheck (st : ProcState) (f : Nat → WaitResult) : Bool :=
  ((setExitStatus st f).2.1).isNone

/-- Iterate `setExitStatus` over a sequence of OS oracles, threading the
handle state (each list element is the oracle for one call). -/
def runTrace (st : ProcState) : List (Nat → WaitResult) → ProcState
  | [] => st
  | f :: fs => runTrace (setExitStatus st f).1 fs

lemma setExitStatus_of_some (st : ProcState) (f : Nat → WaitResult) (v : Int)
    (h : st.exitStatus = some v) : setExitStatus st f = (st, some v, 0) := by
  simp [setExitStatus, h]

lemma setExitStatus_state_exit (st : ProcState) (f : Nat → WaitResult) (v : Int)
    (h : (setExitStatus st f).2.1 = some v) :
    (setExitStatus st f).1.exitStatus = some v := by
  cases hs : st.exitStatus with
  | some w =>
    rw [setExitStatus_of_some st f w hs] at h
    simp only [Option.some.injEq] at h
    subst h
    rw [setExitStatus_of_some st f w hs]
    exact hs
  | none =>
    cases hr : (reapLoop f 3 0).1 with
    | some u => simp_all [setExitStatus]
    | none => simp_all [setExitStatus]

lemma runTrace_preserve (fs : List (Nat → WaitResult)) (st : ProcState) (v : Int)
    (h : st.exitStatus = some v) : (runTrace st fs).exitStatus = some v := by
  induction fs generalizing st with
  | nil => exact h
  | cons f fs ih =>
    simp only [runTrace]
    exact ih _ (by rw [setExitStatus_of_some st f v h]; exact h)

lemma runTrace_append (fs gs : List (Nat → WaitResult)) (st : ProcState) :
    runTrace st (fs ++ gs) = runTrace (runTrace st fs) gs := by
  induction fs generalizing st with
  | nil => rfl
  | cons f fs ih => simp [runTrace, ih]

/-- C3: the exit-status field of a process handle is monotonic. It starts
unset on a freshly started process; once set, a further `setExitStatus`
call returns the stored value with zero OS queries and an unchanged state;
over any trace of calls the value, once set, never changes or reverts to
unset; and once `running` has returned false, it returns false on every
subsequent call. -/
theorem exitStatus_monotonic :
    (∀ fd : Nat, (startedProc fd).exitStatus = none) ∧
    (∀ (st : ProcState) (f : Nat → WaitResult) (v : Int),
      st.exitStatus = some v → setExitStatus st f = (st, some v, 0)) ∧
    (∀ (st : ProcState) (fs gs : List (Nat → WaitResult)) (v : Int),
      (runTrace st fs).exitStatus = some v →
      (runTrace st (fs ++ gs)).exitStatus = some v) ∧
    (∀ (st : ProcState) (f g : Nat → WaitResult),
      runningCheck st f = false → runningCheck (setExitStatus st f).1 g = false) := by
  refine ⟨fun _ => rfl, setExitStatus_of_some, ?_, ?_⟩
  · intro st fs gs v h
    rw [runTrace_append]
    exact runTrace_preserve gs _ v h
  · intro st f g h
    simp only [runningCheck, Option.isNone_eq_false_iff, Option.isSome_iff_exists] at h
    obtain ⟨v, hv⟩ := h
    have hst := setExitStatus_state_exit st f v hv
    simp [runningCheck, setExitStatus_of_some _ g v hst]

/-- Witness for C3: a handle whose status is already recorded is returned
unchanged with zero OS queries, and a handle observed exited stays
not-running on the next call. -/
theorem exitStatus_monotonic_witness :
    setExitStatus ⟨some 5, none, none⟩ (fun _ => .notYet) = (⟨some 5, none, none⟩, some 5, 0) ∧
    (runTrace (startedProc 7) ([fun _ => .exited 0] ++ [fun _ => .notYet])).exitStatus = some 0 ∧
    runningCheck (setExitStatus (startedProc 7) (fun _ => .exited 0)).1 (fun _ => .notYet) = false :=
  ⟨exitStatus_monotonic.2.1 ⟨some 5, none, none⟩ (fun _ => .notYet) 5 rfl,
   exitStatus_monotonic.2.2.1 (startedProc 7) [fun _ => .exited 0] [fun _ => .notYet] 0 rfl,
   exitStatus_monotonic.2.2.2 (startedProc 7) (fun _ => .exited 0) (fun _ => .notYet) rfl⟩

lemma decodeStatus_nonneg (s : Nat) : 0 ≤ decodeStatus s := by
  unfold decodeStatus
  split
  · exact Int.natCast_nonneg _
  · split
    · exact Int.natCast_nonneg _
    · exact Int.natCast_nonneg _

lemma reapLoop_some_decode (f : Nat → WaitResult) (r q : Nat) (v : Int)
    (h : (reapLoop f r q).1 = some v) : ∃ raw, v = decodeStatus raw := by
  induction r generalizing q with
  | zero => simp [reapLoop] at h
  | succ r ih =>
    simp only [reapLoop] at h
    cases hf : f q with
    | exited raw =>
      rw [hf] at h
      simp only [Option.some.injEq] at h
      exact ⟨raw, h.symm⟩
    | notYet => rw [hf] at h; cases h
    | echild => rw [hf] at h; exact ih _ h
    | osfail => rw [hf] at h; cases h

/-- C1 counterexample: a child killed by signal 9 has raw wait status 9
(`WIFSIGNALED` true, `WTERMSIG = 9`); `setExitStatus` records the exit
status `9`, the positive signal number, not `-9` as the claim states, and
the recorded status is not strictly negative. -/
theorem setExitStatus_signal_cex :
    wifsignaled 9 = true ∧
    (setExitStatus (startedProc 3) (fun _ => .exited 9)).2.1 = some 9 ∧
    (setExitStatus (startedProc 3) (fun _ => .exited 9)).2.1 ≠ some (-9) ∧
    ¬ (9 : Int) < 0 := by
  refine ⟨rfl, rfl, ?_, by decide⟩
  intro h
  rw [show (setExitStatus (startedProc 3) (fun _ => .exited 9)).2.1 = some 9 from rfl] at h
  exact absurd (Option.some.inj h) (by decide)

/-- C1 amended: `setExitStatus` encodes a normal exit as the numeric exit
code and termination by a signal as the signal number itself (positive,
e.g. killed by signal 9 gives status 9); every status it records is
non-negative. -/
theorem setExitStatus_encoding :
    (∀ s : Nat, wifexited s = true →
      decodeStatus s = (wexitstatus s : Int) ∧ 0 ≤ decodeStatus s) ∧
    (∀ s : Nat, wifsignaled s = true →
      decodeStatus s = (wtermsig s : Int) ∧ 0 < decodeStatus s) ∧
    (∀ (st : ProcState) (f : Nat → WaitResult) (v : Int),
      st.exitStatus = none → (setExitStatus st f).2.1 = some v → 0 ≤ v) := by
  refine ⟨?_, ?_, ?_⟩
  · intro s h
    refine ⟨by simp [decodeStatus, h], decodeStatus_nonneg s⟩
  · intro s h
    have h1 : s &&& 0x7f ≠ 0 ∧ s &&& 0x7f ≠ 0x7f := by
      simpa [wifsignaled] using h
    have hex : wifexited s = false := by
      simp [wifexited, h1.1]
    refine ⟨by simp [decodeStatus, hex, h], ?_⟩
    have : decodeStatus s = (wtermsig s : Int) := by simp [decodeStatus, hex, h]
    rw [this]
    have : wtermsig s ≠ 0 := h1.1
    omega
  · intro st f v hnone h
    simp only [setExitStatus, hnone] at h
    cases hr : (reapLoop f 3 0).1 with
    | some u =>
      rw [hr] at h
      simp only [Option.some.injEq] at h
      obtain ⟨raw, hraw⟩ := reapLoop_some_decode f 3 0 u hr
      rw [← h, hraw]
      exact decodeStatus_nonneg raw
    | none => rw [hr] at h; cases h

/-- Witness for C1 (amended): normal exit with code 9 (raw status 0x900)
decodes to 9; kill by signal 9 (raw status 9) decodes to 9; a concrete
reap records a non-negative status. -/
theorem setExitStatus_encoding_witness :
    (decodeStatus 2304 = (wexitstatus 2304 : Int) ∧ 0 ≤ decodeStatus 2304) ∧
    (decodeStatus 9 = (wtermsig 9 : Int) ∧ 0 < decodeStatus 9) ∧
    0 ≤ (0 : Int) :=
  ⟨setExitStatus_encoding.1 2304 (by decide),
   setExitStatus_encoding.2.1 9 (by decide),
   setExitStatus_encoding.2.2 (startedProc 3) (fun _ => .exited 0) 0 rfl rfl⟩

/-- `CommonProcessWrapper.write`: append a trailing newline when
`addNewLine` is set and the data does not already end in one
(`EXPR = re.compile(".*\n$")`), then `self._outQueue.put(data)`. When the
stdin queue has been discarded (`self._outQueue` is `None`), the attribute
access on `None` raises an `AttributeError`, modelled as the error result. -/
def pyWrite (st : ProcState) (data : String) (addNewLine : Bool) :
    Except String ProcState :=
  let d := if addNewLine && !(data.endsWith "\n") then data ++ "\n" else data
  match st.outQueue with
  | none => Except.error "AttributeError"
  | some q => Except.ok { st with outQueue := some (q ++ [d]) }

lemma setExitStatus_queue_inv (st : ProcState) (f : Nat → WaitResult)
    (h : st.exitStatus.isSome → st.outQueue = none) :
    (setExitStatus st f).1.exitStatus.isSome → (setExitStatus st f).1.outQueue = none := by
  cases hs : st.exitStatus with
  | some w =>
    rw [setExitStatus_of_some st f w hs]
    intro _
    exact h (by rw [hs]; rfl)
  | none =>
    cases hr : (reapLoop f 3 0).1 with
    | some u => simp [setExitStatus, hs, hr]
    | none =>
      simp only [setExitStatus, hs, hr]
      intro hcontra
      simp at hcontra

lemma runTrace_queue_inv (fs : List (Nat → WaitResult)) (st : ProcState)
    (h : st.exitStatus.isSome → st.outQueue = none) :
    (runTrace st fs).exitStatus.isSome → (runTrace st fs).outQueue = none := by
  induction fs generalizing st with
  | nil => exact h
  | cons f fs ih => exact ih _ (setExitStatus_queue_inv st f h)

/-- C8 counterexample: after the process has exited (raw wait status 0)
and `setExitStatus` has reaped it, a subsequent `write` raises an
`AttributeError` (the stdin queue was set to `None`), instead of returning
normally as the claim states. -/
theorem write_after_exit_cex :
    pyWrite (setExitStatus (startedProc 3) (fun _ => .exited 0)).1 "hello" true
      = Except.error "AttributeError" := rfl

/-- C8 amended: once `setExitStatus` has observed the exit of the process
(recording a non-`None` exit status and discarding the stdin queue), every
subsequent call to `write` raises an `AttributeError` rather than
returning normally; the data is never enqueued or delivered. -/
theorem write_after_exit_raises :
    ∀ (fd : Nat) (fs : List (Nat → WaitResult)) (v : Int) (d : String) (nl : Bool),
      (runTrace (startedProc fd) fs).exitStatus = some v →
      pyWrite (runTrace (startedProc fd) fs) d nl = Except.error "AttributeError" := by
  intro fd fs v d nl h
  have hq : (runTrace (startedProc fd) fs).outQueue = none := by
    refine runTrace_queue_inv fs (startedProc fd) ?_ ?_
    · intro hcontra
      simp [startedProc] at hcontra
    · rw [h]; rfl
  simp [pyWrite, hq]

/-- Witness for C8 (amended) at a concrete reaped handle. -/
theorem write_after_exit_raises_witness :
    pyWrite (runTrace (startedProc 3) [fun _ => .exited 0]) "hello" true
      = Except.error "AttributeError" :=
  write_after_exit_raises 3 [fun _ => .exited 0] 0 "hello" true rfl

/-! ## Waiting for completion (CommonProcessWrapper.wait / start)

`wait` polls `self.running()` in a loop, checking `time.time()` against
`startTime + timeout` on each iteration in which the process is still
running, and sleeping between polls; `start` on a `FOREGROUND` process
starts the process in the background and then calls `wait(self.timeout)`.
The loop is modelled over the finite trace of its observations: each list
element is one iteration's `(running(), time.time())` pair. The loop
itself never signals or kills the process; it only observes it. -/

inductive WaitOutcome
  | completed
  | timedOut
  | pending
deriving DecidableEq, Repr

/-- Python truthiness of the `timeout` argument (`if timeout:`): `None`
and `0` are falsy. -/
def truthy : Option Int → Bool
  | none => false
  | some t => t != 0

/-- The polling loop of `CommonProcessWrapper.wait`. `pending` means the
observation trace was exhausted with the loop still polling (the call has
not returned yet). -/
def waitLoop (startTime : Int) (timeout : Option Int) :
    List (Bool × Int) → WaitOutcome
  | [] => .pending
  | ob :: rest =>
    if ob.1 then
      if truthy timeout then
        if ob.2 > startTime + timeout.getD 0 then .timedOut
        else waitLoop startTime timeout rest
      else waitLoop startTime timeout rest
    else .completed

/-- `CommonProcessWrapper.start`: a `FOREGROUND` process is started and
then waited for with the spec's timeout; a `BACKGROUND` start returns
immediately without waiting. -/
def startProc (state : Nat) (timeout : Option Int) (startTime : Int)
    (obs : List (Bool × Int)) : WaitOutcome :=
  if state = FOREGROUND then waitLoop startTime timeout obs else .completed

/-- C4: for a `FOREGROUND` process with a (non-zero) timeout, `start`
returns normally only if the process was observed no longer running,
raises the process-timeout error only if the process was observed still
running at a time strictly past `startTime + timeout` (so the process is
left running at the moment of the raise — the loop performs no kill), and
keeps polling (does not return) while every observation shows the process
running within the deadline. -/
theorem start_foreground_blocks :
    ∀ (t startTime : Int) (obs : List (Bool × Int)), t ≠ 0 →
      (startProc FOREGROUND (some t) startTime obs = .completed →
        ∃ p ∈ obs, p.1 = false) ∧
      (startProc FOREGROUND (some t) startTime obs = .timedOut →
        ∃ p ∈ obs, p.1 = true ∧ p.2 > startTime + t) ∧
      ((∀ p ∈ obs, p.1 = true ∧ p.2 ≤ startTime + t) →
        startProc FOREGROUND (some t) startTime obs = .pending) := by
  intro t startTime obs ht
  have htr : truthy (some t) = true := by simp [truthy, ht]
  have hsp : ∀ os : List (Bool × Int),
      startProc FOREGROUND (some t) startTime os = waitLoop startTime (some t) os :=
    fun _ => if_pos rfl
  rw [hsp obs]
  induction obs with
  | nil =>
    refine ⟨?_, ?_, fun _ => rfl⟩
    · intro h; simp [waitLoop] at h
    · intro h; simp [waitLoop] at h
  | cons ob rest ih =>
    obtain ⟨r, now⟩ := ob
    have hstep : waitLoop startTime (some t) ((r, now) :: rest) =
        if r = true then
          (if now > startTime + t then WaitOutcome.timedOut
           else waitLoop startTime (some t) rest)
        else WaitOutcome.completed := by
      simp [waitLoop, htr]
    rw [hstep]
    cases r with
    | false =>
      simp only [Bool.false_eq_true, if_false]
      refine ⟨?_, ?_, ?_⟩
      · intro _
        exact ⟨(false, now), List.mem_cons_self _ _, rfl⟩
      · intro h
        exact absurd h (by decide)
      · intro hall
        have h1 := (hall (false, now) (List.mem_cons_self _ _)).1
        simp at h1
    | true =>
      simp only [if_pos rfl]
      by_cases hc : now > startTime + t
      · rw [if_pos hc]
        refine ⟨?_, ?_, ?_⟩
        · intro h
          exact absurd h (by decide)
        · intro _
          exact ⟨(true, now), List.mem_cons_self _ _, rfl, hc⟩
        · intro hall
          have h2 : now ≤ startTime + t := (hall (true, now) (List.mem_cons_self _ _)).2
          omega
      · rw [if_neg hc]
        refine ⟨?_, ?_, ?_⟩
        · intro h
          obtain ⟨p, hp, hpf⟩ := ih.1 h
          exact ⟨p, List.mem_cons_of_mem _ hp, hpf⟩
        · intro h
          obtain ⟨p, hp, hpt⟩ := ih.2.1 h
          exact ⟨p, List.mem_cons_of_mem _ hp, hpt⟩
        · intro hall
          exact ih.2.2 (fun p hp => hall p (List.mem_cons_of_mem _ hp))

/-- Witness for C4 at concrete traces: a trace observing a stopped process
completes, a trace past the deadline times out, and a within-deadline
running trace is still pending. -/
theorem start_foreground_blocks_witness :
    (∃ p ∈ [((false : Bool), (1 : Int))], p.1 = false) ∧
    (∃ p ∈ [((true : Bool), (10 : Int))], p.1 = true ∧ p.2 > 0 + 5) ∧
    startProc FOREGROUND (some 5) 0 [((true : Bool), (3 : Int))] = .pending :=
  ⟨(start_foreground_blocks 5 0 [(false, 1)] (by decide)).1 rfl,
   (start_foreground_blocks 5 0 [(true, 10)] (by decide)).2.1 rfl,
   (start_foreground_blocks 5 0 [(true, 3)] (by decide)).2.2 (by decide)⟩

/-! ## Background threads (pysys/utils/threadutils.py)

A `BackgroundThread` carries the fields that `__run` and `join` read and
update: the cooperative-stop event (`self.stopping`), the captured failure
(`self.exception`, holding the error text), the once-only outcome flag
(`self.__outcomeReported`) and the saved keyboard interrupt
(`self.__kbdrInterrupt`). An exception value is modelled by its message
string. -/

structure BThread where
  name : String
  stopping : Bool
  exception : Option String
  outcomeReported : Bool
  kbdr : Bool
deriving DecidableEq, Repr

/-- The TIMEDOUT message `join` records against the owner. -/
def timeoutMsg (name : String) (timeout : Nat) : String :=
  "Background thread " ++ name ++
  " is still running after waiting for allocated timeout period (" ++
  toString timeout ++ " secs)"

/-- The BLOCKED message `join` records against the owner. -/
def blockedMsg (name : String) (err : String) : String :=
  "Background thread " ++ name ++ " failed with " ++ err

/-- `BackgroundThread.__run`: an uncaught error from the target is
captured on `self.exception` only when the stop event was not already set
when the error occurred; if the thread was being stopped, the error is
only logged and nothing is captured. Returns the captured exception. -/
def runThread (stoppingAtError : Bool) (raised : Option String) : Option String :=
  match raised with
  | none => none
  | some e => if stoppingAtError then none else some e

/-- `BackgroundThread.join(timeout)`: reads and then sets the once-only
`__outcomeReported` flag, re-raises a previously saved keyboard interrupt,
then polls the thread; if the thread is still alive after the wait it
records `TIMEDOUT` against the owner (only if the flag was not already
set) and requests the thread to stop; otherwise, if an exception was
captured, it records `BLOCKED` (only if the flag was not already set).
Returns the new thread state and the list of `(outcome, reason)` pairs
recorded against the owner. `aliveAfterWait` is the liveness of the thread
observed once the polling wait has finished. -/
def join (st : BThread) (timeout : Nat) (aliveAfterWait : Bool) :
    BThread × List (Nat × String) :=
  let rep := st.outcomeReported
  let st1 := { st with outcomeReported := true }
  if st1.kbdr then (st1, [])
  else if aliveAfterWait then
    ({ st1 with stopping := true },
     if rep then [] else [(TIMEDOUT, timeoutMsg st1.name timeout)])
  else
    match st1.exception with
    | some e => (st1, if rep then [] else [(BLOCKED, blockedMsg st1.name e)])
    | none => (st1, [])

/-- Repeated joins: thread the state through a sequence of `join` calls
(one liveness observation per call) and collect every outcome recorded. -/
def joinAll (st : BThread) (timeout : Nat) : List Bool → BThread × List (Nat × String)
  | [] => (st, [])
  | a :: rest =>
    let r1 := join st timeout a
    let r2 := joinAll r1.1 timeout rest
    (r2.1, r1.2 ++ r2.2)

lemma join_outcomeReported (st : BThread) (timeout : Nat) (a : Bool) :
    (join st timeout a).1.outcomeReported = true := by
  cases hk : st.kbdr <;> cases a <;> cases hx : st.exception <;>
    simp [join, hk, hx]

lemma join_reported_no_outcome (st : BThread) (timeout : Nat) (a : Bool)
    (h : st.outcomeReported = true) : (join st timeout a).2 = [] := by
  cases hk : st.kbdr <;> cases a <;> cases hx : st.exception <;>
    simp [join, hk, hx, h]

/-- C5: joining a background thread a second or later time never records
another TIMEDOUT or BLOCKED outcome against the owner, whatever the
thread's state and liveness: after one `join`, every further sequence of
`join` calls records nothing. -/
theorem join_idempotent_outcomes :
    ∀ (st : BThread) (t1 t2 : Nat) (a : Bool) (rest : List Bool),
      (joinAll (join st t1 a).1 t2 rest).2 = [] := by
  intro st t1 t2 a rest
  have h1 := join_outcomeReported st t1 a
  generalize (join st t1 a).1 = st1 at h1
  induction rest generalizing st1 with
  | nil => rfl
  | cons b bs ih =>
    simp only [joinAll]
    rw [join_reported_no_outcome st1 t2 b h1, List.nil_append]
    exact ih _ (join_outcomeReported st1 t2 b)

/-- The state of a background thread that has just finished its wait phase
for its first join: no outcome reported yet, no saved keyboard interrupt,
and the exception captured by `__run` from a possibly-raised error. -/
def freshThread (name : String) (stoppingAtError : Bool) (raised : Option String) : BThread :=
  { name := name, stopping := stoppingAtError,
    exception := runThread stoppingAtError raised,
    outcomeReported := false, kbdr := false }

/-- C6: the first `join` of a background thread records exactly the
outcome dictated by the thread's state: if the thread is still alive after
the join wait, it records `TIMEDOUT` with a message naming the thread and
the timeout, and requests the thread to stop; if the thread raised an
uncaught error while not being stopped, it records `BLOCKED` with the
error's message; if the error was raised while the thread was being
stopped, or no error was raised, nothing is recorded. -/
theorem join_first_outcomes :
    ∀ (name : String) (sErr : Bool) (raised : Option String) (t : Nat) (alive : Bool),
      (alive = true →
        (join (freshThread name sErr raised) t alive).2 = [(TIMEDOUT, timeoutMsg name t)] ∧
        (join (freshThread name sErr raised) t alive).1.stopping = true) ∧
      (alive = false → ∀ e, raised = some e → sErr = false →
        (join (freshThread name sErr raised) t alive).2 = [(BLOCKED, blockedMsg name e)]) ∧
      (alive = false → sErr = true →
        (join (freshThread name sErr raised) t alive).2 = []) ∧
      (alive = false → raised = none →
        (join (freshThread name sErr raised) t alive).2 = []) := by
  intro name sErr raised t alive
  refine ⟨?_, ?_, ?_, ?_⟩
  · rintro rfl
    exact ⟨rfl, rfl⟩
  · rintro rfl e rfl rfl
    rfl
  · rintro rfl rfl
    cases raised <;> rfl
  · rintro rfl rfl
    cases sErr <;> rfl

/-- Witness for C6: a thread still alive records TIMEDOUT and is asked to
stop; a thread that failed with "boom" while not stopping records BLOCKED;
a thread that failed while stopping records nothing. -/
theorem join_first_outcomes_witness :
    ((join (freshThread "worker" false (some "boom")) 30 true).2
        = [(TIMEDOUT, timeoutMsg "worker" 30)] ∧
      (join (freshThread "worker" false (some "boom")) 30 true).1.stopping = true) ∧
    (join (freshThread "worker" false (some "boom")) 30 false).2
        = [(BLOCKED, blockedMsg "worker" "boom")] ∧
    (join (freshThread "worker" true (some "boom")) 30 false).2 = [] :=
  ⟨(join_first_outcomes "worker" false (some "boom") 30 true).1 rfl,
   (join_first_outcomes "worker" false (some "boom") 30 false).2.1 rfl "boom" rfl rfl,
   (join_first_outcomes "worker" true (some "boom") 30 false).2.2.1 rfl rfl⟩

/-! ## Thread-scoped log routing (pysys/internal/initlogging.py)

`ThreadedStreamHandler` stores at construction time the identity of the
creating thread (`self.threadId = threading.current_thread().ident`); its
`emit` returns without writing when the emitting thread's identity differs
from the stored one, and otherwise forwards the record to the underlying
stream (modelled as the ordered list of records written to it). -/

structure StreamHandlerState where
  threadId : Nat
  stream : List String
deriving DecidableEq, Repr

/-- `ThreadedStreamHandler.__init__` run on thread `creator`: the handler
owns the creating thread's identity and a fresh stream. -/
def mkThreadedStreamHandler (creator : Nat) : StreamHandlerState :=
  { threadId := creator, stream := [] }

/-- `ThreadedStreamHandler.emit` invoked from thread `current`: drop the
record if the emitting thread is not the owning thread, else write it. -/
def emit (h : StreamHandlerState) (current : Nat) (record : String) : StreamHandlerState :=
  if h.threadId ≠ current then h
  else { h with stream := h.stream ++ [record] }

/-- C7: a log record reaches a thread-scoped handler's stream if and only
if the emitting thread is the thread that created (owns) the handler; an
emission from any other thread leaves the stream unchanged, and the
handler created on a thread stores exactly that thread's identity. -/
theorem emit_thread_isolation :
    ∀ (h : StreamHandlerState) (current : Nat) (record : String),
      ((emit h current record).stream = h.stream ++ [record] ↔ h.threadId = current) ∧
      ((emit h current record).stream = h.stream ↔ h.threadId ≠ current) ∧
      ∀ creator : Nat, (mkThreadedStreamHandler creator).threadId = creator := by
  intro h current record
  by_cases heq : h.threadId = current
  · refine ⟨?_, ?_, fun _ => rfl⟩
    · simp [emit, heq]
    · constructor
      · intro hs
        exfalso
        rw [emit, if_neg (by simp [heq])] at hs
        simp at hs
      · intro hne
        exact absurd heq hne
  · refine ⟨?_, ?_, fun _ => rfl⟩
    · constructor
      · intro hs
        rw [emit, if_pos heq] at hs
        exfalso
        have := congrArg List.length hs
        simp at this
      · intro hcontra
        exact absurd hcontra heq
    · simp [emit, heq]

/-! ## Scheduler interrupt handling

The runner/scheduler implementation is not part of the source tree (only
its system test, `test/correctness/PySys_internal_188/pysystest.py`, is),
so the interrupt handler is modelled from the specification. -/

inductive UnitStatus
  | PENDING
  | STARTING
  | EXECUTING
  | VALIDATING
  | CLEANING_UP
  | COMPLETED
  | ABORTED
deriving DecidableEq, Repr

structure SchedUnit where
  status : UnitStatus
  everStarted : Bool
  outcome : Option Nat
  reason : String
deriving DecidableEq, Repr

structure RunState where
  units : List SchedUnit
  writerCleanupRan : Bool
  runnerCleanupRan : Bool
deriving DecidableEq, Repr

/-- Modelled from the spec: the scheduler's interrupt handler (the runner
source is missing from the tree) force-records outcome `BLOCKED` with
reason "terminated early due to interruption" for any unit that did not
reach `COMPLETED`, moving it to `ABORTED`; a `COMPLETED` unit is left
untouched. It never starts a unit (the started flag is not modified). -/
def interruptUnit (u : SchedUnit) : SchedUnit :=
  if u.status = .COMPLETED then u
  else { u with status := .ABORTED, outcome := some BLOCKED,
                reason := "terminated early due to interruption" }

/-- Modelled from the spec: on receipt of the operator's abort signal the
scheduler stops dispatching pending units, force-records `BLOCKED` for
every unit that did not reach `COMPLETED`, and still runs every summary
writer's cleanup hook and the run's own top-level cleanup hook. -/
def handleInterrupt (s : RunState) : RunState :=
  { units := s.units.map interruptUnit,
    writerCleanupRan := true,
    runnerCleanupRan := true }

/-- C9: after the interrupt handler runs, every unit that had not reached
`COMPLETED` carries outcome `BLOCKED` with the interruption reason (whose
wording contains "interruption"), no unit's started flag is changed (in
particular a pending unit that had never started still has not), and both
the summary writer's cleanup hook and the run's top-level cleanup hook
have run. -/
theorem interrupt_blocks_inflight :
    ∀ s : RunState,
      (handleInterrupt s).writerCleanupRan = true ∧
      (handleInterrupt s).runnerCleanupRan = true ∧
      (handleInterrupt s).units = s.units.map interruptUnit ∧
      ∀ u ∈ s.units,
        (interruptUnit u).everStarted = u.everStarted ∧
        (u.status ≠ .COMPLETED →
          (interruptUnit u).outcome = some BLOCKED ∧
          (interruptUnit u).reason = "terminated early due to interruption") := by
  intro s
  refine ⟨rfl, rfl, rfl, ?_⟩
  intro u _
  constructor
  · unfold interruptUnit
    split <;> rfl
  · intro hne
    unfold interruptUnit
    rw [if_neg hne]
    exact ⟨rfl, rfl⟩

/-- Witness for C9: a run with one executing unit and one pending
never-started unit; after the interrupt both are BLOCKED with the
interruption reason, the pending unit is still unstarted, and both cleanup
hooks have run. -/
theorem interrupt_blocks_inflight_witness :
    (handleInterrupt ⟨[⟨.EXECUTING, true, none, ""⟩, ⟨.PENDING, false, none, ""⟩], false, false⟩).writerCleanupRan = true ∧
    (interruptUnit ⟨.PENDING, false, none, ""⟩).everStarted = false ∧
    (interruptUnit ⟨.EXECUTING, true, none, ""⟩).outcome = some BLOCKED ∧
    (interruptUnit ⟨.EXECUTING, true, none, ""⟩).reason = "terminated early due to interruption" := by
  have h := interrupt_blocks_inflight
    ⟨[⟨.EXECUTING, true, none, ""⟩, ⟨.PENDING, false, none, ""⟩], false, false⟩
  refine ⟨h.1, ?_, ?_⟩
  · exact (h.2.2.2 ⟨.PENDING, false, none, ""⟩ (by simp)).1
  · exact (h.2.2.2 ⟨.EXECUTING, true, none, ""⟩ (by simp)).2 (by decide)

/-! ## Purity of getOutcome (trunk/pysys/basetest.py)

`BaseTest.getOutcome` operates on `copy.copy(self.outcome)` and sorts the
copy in place; the recorded outcome list itself is left untouched. The
test's outcome state is modelled as the list of recorded outcomes, and a
test run as a sequence of `addOutcome` and `getOutcome` calls. -/

/-- `BaseTest.getOutcome` as a state operation: it returns the aggregate
and the (unchanged) recorded list, since the sort happens on a copy. -/
def getOutcomeOp (outcome : List Nat) : List Nat × Nat :=
  (outcome, getOutcome outcome)

inductive TestOp
  | add (o : Nat)
  | query
deriving DecidableEq, Repr

/-- Effect of one `addOutcome`/`getOutcome` call on the recorded list. -/
def applyOp (st : List Nat) : TestOp → List Nat
  | .add o => addOutcome st o
  | .query => (getOutcomeOp st).1

/-- Run a sequence of calls against the recorded-outcome state. -/
def runOps (st : List Nat) : List TestOp → List Nat
  | [] => st
  | op :: ops => runOps (applyOp st op) ops

def isAddOp : TestOp → Bool
  | .add _ => true
  | .query => false

/-- C10: `getOutcome` is a pure query of the recorded-outcome state: a
single call leaves the recorded list unchanged, and any interleaving of
`getOutcome` calls between `addOutcome` calls yields the same final
recorded list — and hence the same final aggregate — as the `addOutcome`
calls alone. -/
theorem getOutcome_pure :
    ∀ (st : List Nat) (ops : List TestOp),
      (getOutcomeOp st).1 = st ∧
      runOps st ops = runOps st (ops.filter isAddOp) ∧
      getOutcome (runOps st ops) = getOutcome (runOps st (ops.filter isAddOp)) := by
  intro st ops
  have hrun : ∀ (ops : List TestOp) (st : List Nat),
      runOps st ops = runOps st (ops.filter isAddOp) := by
    intro ops
    induction ops with
    | nil => intro st; rfl
    | cons op rest ih =>
      intro st
      cases op with
      | add o =>
        simp only [List.filter_cons, isAddOp, if_pos rfl]
        simp only [runOps, applyOp]
        exact ih (addOutcome st o)
      | query =>
        simp only [List.filter_cons, isAddOp]
        simp only [runOps, applyOp, getOutcomeOp]
        exact ih st
  exact ⟨rfl, hrun ops st, by rw [hrun ops st]⟩
